import Mathlib

/-!
Verification development for the product-catalog slide editor (`script.js`).

The program keeps a mutable in-memory list `productData` of product records
and a cursor `slideIndex`, lets the user page through records, autosaves
field edits on change, and exports the list as a formatted text block.
The embedding below translates each function of the source into a Lean
definition over explicit state; fallible JS code (field access on
`undefined`) is rendered with `Except`.
-/

namespace BakewarePrices

/-! ### JS value model

JS numbers are modelled as rationals plus a `NaN` element; every number in
this program originates from decimal text (JSON or the price widget), so ℚ
is an exact carrier for them.  A JS `price` field can additionally be
`null` (meaning "unset") or `undefined` (the field is absent from the
object), which behave differently: `undefined.toString()` throws.
-/

inductive JsNum where
  | nan : JsNum
  | val : ℚ → JsNum
deriving DecidableEq

inductive JsPrice where
  | undef : JsPrice
  | null : JsPrice
  | num : JsNum → JsPrice
deriving DecidableEq

/-! ### Decimal printing, a model of JS `Number.prototype.toString`

`script.js` compares prices by comparing their `toString()` images
(lines 126-128), so the only properties of `toString` the program's
behaviour depends on are: it is injective on numbers, never returns the
empty string, and returns `"NaN"` only for `NaN`.  The printer below has
exactly those properties: integers print as signed decimal numerals (as in
JS); non-integral rationals print as `num/den`, standing in for the decimal
expansion JS would print.
-/

/-- Little-endian decimal digits of `n`; the first argument is fuel
(`natDigitsRev` passes `n` itself, which is always enough). -/
def natDigitsRevAux : Nat → Nat → List Nat
  | _, 0 => []
  | 0, _ + 1 => []
  | f + 1, n + 1 => (n + 1) % 10 :: natDigitsRevAux f ((n + 1) / 10)

def natDigitsRev (n : Nat) : List Nat := natDigitsRevAux n n

/-- Decimal numeral of a natural number, as JS prints it (`0` prints `"0"`). -/
def jsNatChars (n : Nat) : List Char :=
  if n = 0 then ['0'] else ((natDigitsRev n).map Nat.digitChar).reverse

/-- Signed decimal numeral of an integer, as JS prints it. -/
def intChars (i : Int) : List Char :=
  if i < 0 then '-' :: jsNatChars i.natAbs else jsNatChars i.natAbs

def jsNumChars : JsNum → List Char
  | .nan => ['N', 'a', 'N']
  | .val q => if q.den = 1 then intChars q.num else intChars q.num ++ '/' :: jsNatChars q.den

/-- Model of JS `Number.prototype.toString` on the embedded numbers. -/
def jsNumToString (n : JsNum) : String := (jsNumChars n).asString

/-! ### Model of JS `parseFloat`

`parseFloat` skips leading whitespace, accepts an optional sign, then the
longest prefix of the form `digits [ '.' digits ]`, ignoring any trailing
garbage; if no digits were consumed it returns `NaN`.  (Exponent notation
is not modelled; no claim depends on it.)
-/

/-- Split a character list into its longest digit prefix (as digit values)
and the rest. -/
def takeDigits : List Char → List Nat × List Char
  | [] => ([], [])
  | c :: cs =>
    if c.isDigit then
      let r := takeDigits cs
      ((c.toNat - 48) :: r.1, r.2)
    else ([], c :: cs)

/-- Value of a big-endian digit list. -/
def digitsVal (ds : List Nat) : Nat := ds.foldl (fun a d => a * 10 + d) 0

def parseFloat (s : String) : JsNum :=
  let cs := s.toList.dropWhile Char.isWhitespace
  let sgn :=
    match cs with
    | '-' :: rest => (true, rest)
    | '+' :: rest => (false, rest)
    | _ => (false, cs)
  let ip := takeDigits sgn.2
  let fp :=
    match ip.2 with
    | '.' :: rest => (takeDigits rest).1
    | _ => []
  if ip.1 = [] ∧ fp = [] then .nan
  else
    let mag : ℚ := (digitsVal ip.1 : ℚ) + (digitsVal fp : ℚ) / ((10 : ℚ) ^ fp.length)
    .val (if sgn.1 then -mag else mag)

/-! ### Data model

`Product` is a record of `productData` after load (`fetchProductData`
defaults `isAvailable` and `note` but spreads everything else unchanged, so
`price` keeps whatever the JSON had: absent, `null`, or a number).
`Widgets` holds the live values of the three editable DOM inputs.
`AppState` is the mutable module-level state (`productData`, `slideIndex`)
together with the widgets.
-/

structure Product where
  id : String
  title : String
  image : String
  price : JsPrice
  isAvailable : Bool
  note : String
deriving DecidableEq

structure Widgets where
  priceText : String
  notAvailableChecked : Bool
  noteText : String
deriving DecidableEq

structure AppState where
  productData : List Product
  slideIndex : Int
  widgets : Widgets
deriving DecidableEq

/-- JS array indexing `productData[i]`: `undefined` (here `none`) when `i`
is negative or past the end. -/
def jsIndex (l : List Product) (i : Int) : Option Product :=
  if 0 ≤ i then l[i.toNat]? else none

/-! ### Load normalization (`fetchProductData`, lines 30-34)

A raw JSON item may lack `isAvailable`, `note` or `price`; the object
spread keeps absent fields absent, and only `isAvailable` and `note` are
explicitly defaulted.
-/

structure RawItem where
  id : String
  title : String
  image : String
  price : JsPrice
  isAvailable : Option Bool
  note : Option String
deriving DecidableEq

/-- The per-item mapping of `fetchProductData` (lines 30-34):
`isAvailable !== undefined ? isAvailable : true`, likewise for `note`;
all other fields (including `price`) are spread through unchanged. -/
def loadItem (item : RawItem) : Product :=
  { id := item.id
    title := item.title
    image := item.image
    price := item.price
    isAvailable := match item.isAvailable with | some b => b | none => true
    note := match item.note with | some t => t | none => "" }

def loadProducts (items : List RawItem) : List Product := items.map loadItem

/-! ### Change detection and autosave (`updateProductData`, lines 115-143) -/

/-- The string a price is turned into for comparison purposes
(`p !== null ? p.toString() : ""`, lines 126-128): `null` compares as `""`,
a number as its `toString()`, and an absent (`undefined`) price throws a
`TypeError` (`undefined.toString()`), modelled as `Except.error`. -/
def priceCompareString : JsPrice → Except Unit String
  | .undef => .error ()
  | .null => .ok ""
  | .num n => .ok (jsNumToString n)

/-- The normalized new price of line 120-121:
`productPriceEl.value === "" ? null : parseFloat(productPriceEl.value)`. -/
def newPriceOf (w : Widgets) : JsPrice :=
  if w.priceText = "" then .null else .num (parseFloat w.priceText)

/-- Model of JS `String.prototype.trim` (line 123): strip whitespace from
both ends. -/
def jsTrim (s : String) : String :=
  ((s.toList.dropWhile Char.isWhitespace).reverse.dropWhile Char.isWhitespace).reverse.asString

/-- The `priceChanged` constant of lines 126-128. -/
def priceChangedOf (currentProduct : Product) (w : Widgets) : Except Unit Bool := do
  let oldStr ← priceCompareString currentProduct.price
  let newStr ← priceCompareString (newPriceOf w)
  .ok (oldStr != newStr)

/-- The disjunction of `priceChanged`, `availabilityChanged` and
`noteChanged` (lines 126-132). -/
def detectChanges (currentProduct : Product) (w : Widgets) : Except Unit Bool := do
  let priceChanged ← priceChangedOf currentProduct w
  .ok (priceChanged
        || (currentProduct.isAvailable != !w.notAvailableChecked)
        || (currentProduct.note != jsTrim w.noteText))

/-- The combined write of lines 133-135: all three fields are committed at
once from the normalized widget values. -/
def applyEditTo (currentProduct : Product) (w : Widgets) : Product :=
  { currentProduct with
    price := newPriceOf w
    isAvailable := !w.notAvailableChecked
    note := jsTrim w.noteText }

/-- The confirmation status of line 138. -/
def updatedMsg (currentProduct : Product) : String :=
  "Data for \"" ++ currentProduct.title ++ "\" updated!"

/-- Model of `updateProductData(showStatus)` (lines 115-143).  Returns the
new state together with the status message it displayed, if any; `.error`
models a thrown `TypeError` (field access on `undefined`). -/
def updateProductData (s : AppState) (showStatus : Bool) :
    Except Unit (AppState × Option String) :=
  if s.productData.length = 0 then .ok (s, none)
  else
    match jsIndex s.productData s.slideIndex with
    | none => .error ()
    | some currentProduct => do
      let changed ← detectChanges currentProduct s.widgets
      if changed then
        .ok ({ s with productData :=
                 s.productData.set s.slideIndex.toNat (applyEditTo currentProduct s.widgets) },
             if showStatus then some (updatedMsg currentProduct) else none)
      else
        .ok (s, none)

/-! ### Slide display and navigation (`showSlide` lines 52-110,
`navigateSlide` lines 148-152) -/

/-- The cursor normalization of `showSlide` (lines 55-60): the argument `n`
is tested, the global `slideIndex` (here `cur`) is assigned.  Note this is
a single clamp (`n ≥ length` resets to `0`, `n < 0` resets to
`length - 1`), not modulo arithmetic. -/
def showSlideCursor (len : Nat) (cur n : Int) : Int :=
  if n < 0 then (len : Int) - 1 else if n ≥ (len : Int) then 0 else cur

/-- The cursor effect of one navigation step: `navigateSlide` first sets
`slideIndex += delta` (line 150) and then `showSlide(slideIndex)`
normalizes it (lines 55-60). -/
def seek (len : Nat) (cur delta : Int) : Int :=
  showSlideCursor len (cur + delta) (cur + delta)

/-- Line 69, `productPriceEl.value = product.price ?? ""`: nullish
coalescing maps both `undefined` and `null` to `""`; assigning a number to
an input coerces it with `toString`. -/
def widgetPriceString : JsPrice → String
  | .undef => ""
  | .null => ""
  | .num n => jsNumToString n

/-- Model of `showSlide(n)` (lines 52-110) on the catalog/cursor/widget
state.  The image-element effects (lines 64-109) are modelled separately by
the `ImgState` transition system below.  `.error` models the `TypeError`
JS would throw on `product.title` if the indexed record were `undefined`
(unreachable from the program's call sites). -/
def showSlide (s : AppState) (n : Int) : Except Unit AppState :=
  if s.productData.length = 0 then .ok s
  else
    match jsIndex s.productData (showSlideCursor s.productData.length s.slideIndex n) with
    | none => .error ()
    | some product =>
        .ok { s with
              slideIndex := showSlideCursor s.productData.length s.slideIndex n
              widgets :=
                { priceText := widgetPriceString product.price
                  notAvailableChecked := !product.isAvailable
                  noteText := product.note } }

/-- Model of `navigateSlide(n)` (lines 148-152): silent autosave flush,
then `slideIndex += n`, then `showSlide(slideIndex)`. -/
def navigateSlide (s : AppState) (n : Int) : Except Unit AppState := do
  let r ← updateProductData s false
  let s2 : AppState := { r.1 with slideIndex := r.1.slideIndex + n }
  showSlide s2 s2.slideIndex

/-! ### Export formatter (`formatProductDataForSharing`, lines 160-182) -/

/-- Model of JS `toFixed(0)`: the integer closest to the number, ties
resolved to the larger integer (ECMA: "if there are two such n, pick the
larger n"), printed in decimal; `NaN.toFixed(0)` is `"NaN"`. -/
def toFixed0 : JsNum → String
  | .nan => "NaN"
  | .val q => (intChars ⌊q + 1 / 2⌋).asString

/-- The per-record block of lines 162-178, for 0-based `index`.  An
available record with an absent (`undefined`) price throws
(`undefined.toFixed(0)`, line 168). -/
def formatLine (index : Nat) (product : Product) : Except Unit String := do
  let base := Nat.repr (index + 1) ++ ". " ++ product.title
  let middle ←
    if product.isAvailable then do
      let price ←
        match product.price with
        | .undef => Except.error ()
        | .null => Except.ok "N/A"
        | .num m => Except.ok (toFixed0 m ++ " PKR")
      Except.ok ("\n   - Price: " ++ price)
    else Except.ok "\n   - Status: *Not Available*"
  let noteLine := if product.note ≠ "" then "\n   - Note: " ++ product.note else ""
  .ok (base ++ middle ++ noteLine)

/-- The indexed map of line 161-178 (`productData.map((product, index) =>
...)`). -/
def formatLines : Nat → List Product → Except Unit (List String)
  | _, [] => .ok []
  | i, p :: rest => do
    let line ← formatLine i p
    let lines ← formatLines (i + 1) rest
    .ok (line :: lines)

/-- Model of `formatProductDataForSharing()` (lines 160-182). -/
def formatProductDataForSharing (l : List Product) : Except Unit String := do
  let lines ← formatLines 0 l
  .ok ("--- PRODUCT LIST ---\n\n" ++ String.intercalate "\n---\n" lines ++ "\n\n--- END ---")

/-- Model of the data path of `copyDataToClipboard` (lines 187-191):
silent autosave flush, then format the catalog.  The clipboard write and
the alerts are external sinks and not modelled. -/
def copyDataToClipboard (s : AppState) : Except Unit (AppState × String) := do
  let r ← updateProductData s false
  let dataToCopy ← formatProductDataForSharing r.1.productData
  .ok (r.1, dataToCopy)

/-! ### Image load sequencer (`showSlide` image section, lines 64-109)

Each `showSlide` call wraps one image load in a fresh `Promise`: it first
clears `productImageEl.onload` and `onerror` (lines 81-82), installs the
new promise's `resolve`/`reject` as the element's handlers (lines 85-88),
and sets `src` (line 91); the promise's `then`/`catch` callbacks
(lines 95-109) update the display when the promise settles.

We model this with generation numbers: the `k`-th `showSlide` call owns
generation `k`, `handlers` records which generation's resolvers are
currently installed on the image element (handler assignment overwrites,
so at most one generation is installed), `settled` records which promises
have settled (a promise settles at most once; later fires are no-ops), and
`lastDisplay` records which generation last wrote the image display state
(spinner cleared, image/placeholder shown, opacity restored) and whether
it was the success (`true`, lines 96-100) or failure (`false`,
lines 101-109) path.  JS is single threaded and the `then`/`catch`
microtasks of a settled promise run before the next event, so one `fire`
event settles the promise and updates the display atomically.
-/

structure ImgState where
  curGen : Nat
  handlers : Option Nat
  settled : List Nat
  lastDisplay : Option (Nat × Bool)
deriving DecidableEq

inductive ImgEv where
  | navigate : ImgEv
  | fire : Bool → ImgEv
deriving DecidableEq

/-- One event of the image subsystem.  `navigate` is the image section of a
`showSlide` call: it discards the previously installed handlers and
installs the resolvers of a fresh promise (lines 79-93).  `fire ok` is the
browser delivering `load`/`error` on the image element: it invokes the
currently installed handler, which settles that handler's promise (if not
already settled) and runs its `then`/`catch` display update
(lines 95-109). -/
def imgStep (s : ImgState) : ImgEv → ImgState
  | .navigate =>
      { s with curGen := s.curGen + 1, handlers := some (s.curGen + 1) }
  | .fire ok =>
      match s.handlers with
      | none => s
      | some g =>
          if g ∈ s.settled then s
          else { s with settled := g :: s.settled, lastDisplay := some (g, ok) }

/-- State before the first `showSlide`: no load started, no handlers
installed. -/
def imgInit : ImgState :=
  { curGen := 0, handlers := none, settled := [], lastDisplay := none }

def runImg (s : ImgState) (evs : List ImgEv) : ImgState := evs.foldl imgStep s

/-! ### Auxiliary definitions used by the verification below -/

deriving instance DecidableEq for Except

/-- A fresh, untouched set of widgets. -/
def emptyWidgets : Widgets :=
  { priceText := "", notAvailableChecked := false, noteText := "" }

/-- The state after a failed or empty load: the catalog stays empty. -/
def emptyCatalogState : AppState :=
  { productData := [], slideIndex := 0, widgets := emptyWidgets }

/-- The per-record block of the export, restated in the specification's
words (§4.4): a title line numbered from 1; then a Status line when the
record is unavailable (availability takes precedence over price display),
else a Price line with the price rounded to 0 decimal places and suffix
`" PKR"` (or `"N/A"` for an absent price); then a Note line only when the
note is non-empty.  Used to state that the code's formatter computes
exactly this. -/
def exportSpecLine (n : Nat) (p : Product) : String :=
  Nat.repr n ++ ". " ++ p.title
    ++ (if p.isAvailable then
          (match p.price with
           | .num m => "\n   - Price: " ++ toFixed0 m ++ " PKR"
           | _ => "\n   - Price: N/A")
        else "\n   - Status: *Not Available*")
    ++ (if p.note ≠ "" then "\n   - Note: " ++ p.note else "")

def exportSpecBody : Nat → List Product → List String
  | _, [] => []
  | n, p :: rest => exportSpecLine n p :: exportSpecBody (n + 1) rest

def exportSpec (l : List Product) : String :=
  "--- PRODUCT LIST ---\n\n" ++ String.intercalate "\n---\n" (exportSpecBody 1 l)
    ++ "\n\n--- END ---"

/-- The two-record example catalog of the specification's export
determinism property. -/
def exampleCatalog : List Product :=
  [{ id := "1", title := "Pen", image := "pen.png", price := .num (.val 10),
     isAvailable := true, note := "" },
   { id := "2", title := "Cup", image := "cup.png", price := .null,
     isAvailable := false, note := "chipped" }]

/-- A record whose source JSON had no `price` entry at all: after load the
field is still absent (`undefined`). -/
def undefPriceProduct : Product :=
  { id := "u1", title := "Mystery", image := "m.png", price := .undef,
    isAvailable := true, note := "" }

def undefPriceState : AppState :=
  { productData := [undefPriceProduct], slideIndex := 0, widgets := emptyWidgets }

/-- The reachability invariant of the image subsystem: the installed
handlers always belong to the promise of the latest `showSlide` call
(line 80-92 overwrite them before every new load), and the display was
last written by a promise that has settled. -/
def ImgInv (s : ImgState) : Prop :=
  (s.handlers = none ∨ s.handlers = some s.curGen)
  ∧ (∀ g b, s.lastDisplay = some (g, b) → g ∈ s.settled)

/-! ### Properties of the decimal printer

The program compares prices through their `toString` images, so the facts
below (injectivity, non-emptiness, disjointness from `"NaN"`) are what
connect the string comparison of lines 126-128 to value equality of
prices.
-/

/-- Value of a little-endian digit list. -/
def revDigitsVal (ds : List Nat) : Nat := ds.foldr (fun d a => d + 10 * a) 0

theorem revDigitsVal_nil : revDigitsVal [] = 0 := rfl

theorem revDigitsVal_cons (d : Nat) (ds : List Nat) :
    revDigitsVal (d :: ds) = d + 10 * revDigitsVal ds := rfl

theorem natDigitsRevAux_val : ∀ f n, n ≤ f → revDigitsVal (natDigitsRevAux f n) = n := by
  intro f
  induction f with
  | zero =>
    intro n hn
    have : n = 0 := Nat.le_zero.mp hn
    subst this
    rfl
  | succ f ih =>
    intro n hn
    match n with
    | 0 => rfl
    | m + 1 =>
      have hlt : (m + 1) / 10 < m + 1 := Nat.div_lt_self (Nat.succ_pos m) (by norm_num)
      have hdiv : (m + 1) / 10 ≤ f := by omega
      rw [natDigitsRevAux, revDigitsVal_cons, ih _ hdiv]
      omega

theorem natDigitsRev_val (n : Nat) : revDigitsVal (natDigitsRev n) = n :=
  natDigitsRevAux_val n n le_rfl

theorem natDigitsRev_inj {m n : Nat} (h : natDigitsRev m = natDigitsRev n) : m = n := by
  have hm := natDigitsRev_val m
  have hn := natDigitsRev_val n
  rw [h, hn] at hm
  exact hm.symm

theorem natDigitsRevAux_lt : ∀ f n, ∀ d ∈ natDigitsRevAux f n, d < 10 := by
  intro f
  induction f with
  | zero =>
    intro n d hd
    match n with
    | 0 => simp [natDigitsRevAux] at hd
    | m + 1 => simp [natDigitsRevAux] at hd
  | succ f ih =>
    intro n d hd
    match n with
    | 0 => simp [natDigitsRevAux] at hd
    | m + 1 =>
      rw [natDigitsRevAux] at hd
      rcases List.mem_cons.mp hd with h | h
      · subst h
        exact Nat.mod_lt _ (by norm_num)
      · exact ih _ d h

theorem natDigitsRev_ne_nil {n : Nat} (hn : n ≠ 0) : natDigitsRev n ≠ [] := by
  match n with
  | 0 => exact absurd rfl hn
  | m + 1 =>
    rw [natDigitsRev, natDigitsRevAux]
    exact List.cons_ne_nil _ _

theorem digitChar_inj_lt : ∀ a < 10, ∀ b < 10, Nat.digitChar a = Nat.digitChar b → a = b := by
  decide

theorem digitChar_isDigit : ∀ d < 10, (Nat.digitChar d).isDigit = true := by
  decide

theorem map_digitChar_inj :
    ∀ l₁ l₂ : List Nat, (∀ d ∈ l₁, d < 10) → (∀ d ∈ l₂, d < 10) →
      l₁.map Nat.digitChar = l₂.map Nat.digitChar → l₁ = l₂ := by
  intro l₁
  induction l₁ with
  | nil =>
    intro l₂ _ _ h
    cases l₂ with
    | nil => rfl
    | cons b t => simp at h
  | cons a t ih =>
    intro l₂ h1 h2 h
    cases l₂ with
    | nil => simp at h
    | cons b t₂ =>
      simp only [List.map_cons, List.cons.injEq] at h
      have ha : a = b :=
        digitChar_inj_lt a (h1 a (List.mem_cons_self a t)) b
          (h2 b (List.mem_cons_self b t₂)) h.1
      have ht : t = t₂ :=
        ih t₂ (fun d hd => h1 d (List.mem_cons_of_mem a hd))
          (fun d hd => h2 d (List.mem_cons_of_mem b hd)) h.2
      rw [ha, ht]

theorem jsNatChars_isDigit {n : Nat} : ∀ c ∈ jsNatChars n, c.isDigit = true := by
  intro c hc
  rw [jsNatChars] at hc
  by_cases hn : n = 0
  · simp [hn] at hc
    subst hc
    decide
  · simp only [if_neg hn, List.mem_reverse, List.mem_map] at hc
    obtain ⟨d, hd, hdc⟩ := hc
    subst hdc
    exact digitChar_isDigit d (natDigitsRevAux_lt n n d hd)

theorem jsNatChars_ne_nil (n : Nat) : jsNatChars n ≠ [] := by
  rw [jsNatChars]
  by_cases hn : n = 0
  · simp [hn]
  · simp only [if_neg hn, ne_eq, List.reverse_eq_nil_iff, List.map_eq_nil_iff]
    exact natDigitsRev_ne_nil hn

theorem jsNatChars_inj {m n : Nat} (h : jsNatChars m = jsNatChars n) : m = n := by
  rw [jsNatChars, jsNatChars] at h
  by_cases hm : m = 0 <;> by_cases hn : n = 0
  · rw [hm, hn]
  · exfalso
    simp only [if_pos hm, if_neg hn] at h
    have h' : (natDigitsRev n).map Nat.digitChar = ['0'] := by
      have := congrArg List.reverse h
      simpa using this.symm
    have hdig : natDigitsRev n = [0] := by
      apply map_digitChar_inj _ [0] (fun d hd => natDigitsRevAux_lt n n d hd)
        (by intro d hd; simp at hd; omega)
      simpa using h'
    have := natDigitsRev_val n
    rw [hdig] at this
    simp [revDigitsVal] at this
    exact hn this.symm
  · exfalso
    simp only [if_neg hm, if_pos hn] at h
    have h' : (natDigitsRev m).map Nat.digitChar = ['0'] := by
      have := congrArg List.reverse h
      simpa using this
    have hdig : natDigitsRev m = [0] := by
      apply map_digitChar_inj _ [0] (fun d hd => natDigitsRevAux_lt m m d hd)
        (by intro d hd; simp at hd; omega)
      simpa using h'
    have := natDigitsRev_val m
    rw [hdig] at this
    simp [revDigitsVal] at this
    exact hm this.symm
  · simp only [if_neg hm, if_neg hn, List.reverse_inj] at h
    exact natDigitsRev_inj
      (map_digitChar_inj _ _ (fun d hd => natDigitsRevAux_lt m m d hd)
        (fun d hd => natDigitsRevAux_lt n n d hd) h)

theorem mem_intChars {i : Int} : ∀ c ∈ intChars i, c.isDigit = true ∨ c = '-' := by
  intro c hc
  rw [intChars] at hc
  by_cases hi : i < 0
  · simp only [if_pos hi] at hc
    rcases List.mem_cons.mp hc with h | h
    · exact Or.inr h
    · exact Or.inl (jsNatChars_isDigit c h)
  · simp only [if_neg hi] at hc
    exact Or.inl (jsNatChars_isDigit c hc)

theorem slash_not_mem_intChars {i : Int} : '/' ∉ intChars i := by
  intro hmem
  rcases mem_intChars '/' hmem with h | h <;> exact absurd h (by decide)

theorem upperN_not_mem_intChars {i : Int} : 'N' ∉ intChars i := by
  intro hmem
  rcases mem_intChars 'N' hmem with h | h <;> exact absurd h (by decide)

theorem slash_not_mem_jsNatChars {n : Nat} : '/' ∉ jsNatChars n := by
  intro hmem
  exact absurd (jsNatChars_isDigit '/' hmem) (by decide)

theorem intChars_ne_nil (i : Int) : intChars i ≠ [] := by
  rw [intChars]
  by_cases hi : i < 0
  · simp [if_pos hi]
  · simp only [if_neg hi]
    exact jsNatChars_ne_nil _

theorem intChars_inj {i j : Int} (h : intChars i = intChars j) : i = j := by
  rw [intChars, intChars] at h
  by_cases hi : i < 0 <;> by_cases hj : j < 0
  · simp only [if_pos hi, if_pos hj, List.cons.injEq, true_and] at h
    have := jsNatChars_inj h
    omega
  · exfalso
    simp only [if_pos hi, if_neg hj] at h
    have : '-' ∈ jsNatChars j.natAbs := by
      rw [← h]
      exact List.mem_cons_self _ _
    exact absurd (jsNatChars_isDigit '-' this) (by decide)
  · exfalso
    simp only [if_neg hi, if_pos hj] at h
    have : '-' ∈ jsNatChars i.natAbs := by
      rw [h]
      exact List.mem_cons_self _ _
    exact absurd (jsNatChars_isDigit '-' this) (by decide)
  · simp only [if_neg hi, if_neg hj] at h
    have := jsNatChars_inj h
    omega

theorem append_sep_inj {sep : Char} :
    ∀ l₁ l₂ r₁ r₂ : List Char, sep ∉ l₁ → sep ∉ l₂ →
      l₁ ++ sep :: r₁ = l₂ ++ sep :: r₂ → l₁ = l₂ ∧ r₁ = r₂ := by
  intro l₁
  induction l₁ with
  | nil =>
    intro l₂ r₁ r₂ _ h2 h
    cases l₂ with
    | nil => simpa using h
    | cons b t =>
      exfalso
      simp only [List.nil_append, List.cons_append, List.cons.injEq] at h
      exact h2 (h.1 ▸ List.mem_cons_self b t)
  | cons a t ih =>
    intro l₂ r₁ r₂ h1 h2 h
    cases l₂ with
    | nil =>
      exfalso
      simp only [List.cons_append, List.nil_append, List.cons.injEq] at h
      exact h1 (h.1.symm ▸ List.mem_cons_self a t)
    | cons b t₂ =>
      simp only [List.cons_append, List.cons.injEq] at h
      have := ih t₂ r₁ r₂ (fun hm => h1 (List.mem_cons_of_mem a hm))
        (fun hm => h2 (List.mem_cons_of_mem b hm)) h.2
      exact ⟨by rw [h.1, this.1], this.2⟩

theorem jsNumChars_inj : ∀ {a b : JsNum}, jsNumChars a = jsNumChars b → a = b := by
  intro a b h
  match a, b with
  | .nan, .nan => rfl
  | .nan, .val q =>
    exfalso
    rw [jsNumChars, jsNumChars] at h
    by_cases hq : q.den = 1
    · simp only [if_pos hq] at h
      exact upperN_not_mem_intChars (h ▸ List.mem_cons_self 'N' ['a', 'N'])
    · simp only [if_neg hq] at h
      have : 'N' ∈ intChars q.num ++ '/' :: jsNatChars q.den :=
        h ▸ List.mem_cons_self 'N' ['a', 'N']
      rcases List.mem_append.mp this with hm | hm
      · exact upperN_not_mem_intChars hm
      · rcases List.mem_cons.mp hm with hm | hm
        · exact absurd hm (by decide)
        · exact absurd (jsNatChars_isDigit 'N' hm) (by decide)
  | .val q, .nan =>
    exfalso
    rw [jsNumChars, jsNumChars] at h
    by_cases hq : q.den = 1
    · simp only [if_pos hq] at h
      exact upperN_not_mem_intChars (h.symm ▸ List.mem_cons_self 'N' ['a', 'N'])
    · simp only [if_neg hq] at h
      have : 'N' ∈ intChars q.num ++ '/' :: jsNatChars q.den :=
        h.symm ▸ List.mem_cons_self 'N' ['a', 'N']
      rcases List.mem_append.mp this with hm | hm
      · exact upperN_not_mem_intChars hm
      · rcases List.mem_cons.mp hm with hm | hm
        · exact absurd hm (by decide)
        · exact absurd (jsNatChars_isDigit 'N' hm) (by decide)
  | .val p, .val q =>
    rw [jsNumChars, jsNumChars] at h
    by_cases hp : p.den = 1 <;> by_cases hq : q.den = 1
    · simp only [if_pos hp, if_pos hq] at h
      have hnum := intChars_inj h
      have : p = q := Rat.ext hnum (hp.trans hq.symm)
      rw [this]
    · exfalso
      simp only [if_pos hp, if_neg hq] at h
      have : '/' ∈ intChars p.num := by
        rw [h]
        exact List.mem_append.mpr (Or.inr (List.mem_cons_self _ _))
      exact slash_not_mem_intChars this
    · exfalso
      simp only [if_neg hp, if_pos hq] at h
      have : '/' ∈ intChars q.num := by
        rw [← h]
        exact List.mem_append.mpr (Or.inr (List.mem_cons_self _ _))
      exact slash_not_mem_intChars this
    · simp only [if_neg hp, if_neg hq] at h
      have := append_sep_inj _ _ _ _ slash_not_mem_intChars slash_not_mem_intChars h
      have hnum := intChars_inj this.1
      have hden := jsNatChars_inj this.2
      have : p = q := Rat.ext hnum hden
      rw [this]

theorem jsNumToString_inj {a b : JsNum} (h : jsNumToString a = jsNumToString b) : a = b :=
  jsNumChars_inj (List.asString_inj.mp h)

theorem jsNumChars_ne_nil (a : JsNum) : jsNumChars a ≠ [] := by
  match a with
  | .nan => simp [jsNumChars]
  | .val q =>
    rw [jsNumChars]
    by_cases hq : q.den = 1
    · simpa [if_pos hq] using intChars_ne_nil q.num
    · simp only [if_neg hq, ne_eq, List.append_eq_nil]
      intro hcon
      exact absurd hcon.2 (List.cons_ne_nil _ _)

theorem jsNumToString_ne_empty (a : JsNum) : jsNumToString a ≠ "" := by
  intro hcon
  apply jsNumChars_ne_nil a
  have : (jsNumChars a).asString = ([] : List Char).asString := hcon
  exact List.asString_inj.mp this

/-! ### Semantics of the price comparison (lines 120-131) -/

theorem newPriceOf_ne_undef (w : Widgets) : newPriceOf w ≠ .undef := by
  rw [newPriceOf]
  split <;> simp

theorem priceCompareString_ok {p : JsPrice} (hp : p ≠ .undef) :
    priceCompareString p = .ok (widgetPriceString p) := by
  match p with
  | .undef => exact absurd rfl hp
  | .null => rfl
  | .num n => rfl

/-- The comparison string determines a defined price: `toString` is
injective on numbers and never empty, so `null` (compared as `""`) and the
numbers all have distinct comparison strings. -/
theorem widgetPriceString_inj {p q : JsPrice} (hp : p ≠ .undef) (hq : q ≠ .undef)
    (h : widgetPriceString p = widgetPriceString q) : p = q := by
  match p, q with
  | .undef, _ => exact absurd rfl hp
  | _, .undef => exact absurd rfl hq
  | .null, .null => rfl
  | .null, .num n => exact absurd (h.symm : jsNumToString n = "") (jsNumToString_ne_empty n)
  | .num n, .null => exact absurd (h : jsNumToString n = "") (jsNumToString_ne_empty n)
  | .num n, .num m => rw [jsNumToString_inj (h : jsNumToString n = jsNumToString m)]

theorem priceChangedOf_ok {cur : Product} {w : Widgets} (h : cur.price ≠ .undef) :
    priceChangedOf cur w =
      .ok (widgetPriceString cur.price != widgetPriceString (newPriceOf w)) := by
  rw [priceChangedOf, priceCompareString_ok h, priceCompareString_ok (newPriceOf_ne_undef w)]
  rfl

/-- The `priceChanged` test of lines 126-128 is value inequality of the
stored and the normalized new price. -/
theorem priceChangedOf_iff {cur : Product} {w : Widgets} (h : cur.price ≠ .undef) :
    priceChangedOf cur w = .ok (decide (cur.price ≠ newPriceOf w)) := by
  rw [priceChangedOf_ok h]
  congr 1
  by_cases heq : cur.price = newPriceOf w
  · simp [heq]
  · have hstr : widgetPriceString cur.price ≠ widgetPriceString (newPriceOf w) :=
      fun hs => heq (widgetPriceString_inj h (newPriceOf_ne_undef w) hs)
    simp [heq, hstr]

/-- The combined change test of lines 126-132, as value (in)equality of the
three normalized fields against the stored record. -/
theorem detectChanges_iff {cur : Product} {w : Widgets} (h : cur.price ≠ .undef) :
    detectChanges cur w =
      .ok (decide (cur.price ≠ newPriceOf w
            ∨ cur.isAvailable ≠ (!w.notAvailableChecked)
            ∨ cur.note ≠ jsTrim w.noteText)) := by
  rw [detectChanges, priceChangedOf_iff h]
  show Except.ok _ = Except.ok _
  congr 1
  cases hA : cur.isAvailable <;> cases hB : w.notAvailableChecked <;>
    by_cases h1 : cur.price = newPriceOf w <;>
      by_cases h3 : cur.note = jsTrim w.noteText <;>
        simp [h1, h3, hA, hB]

theorem detectChanges_error {cur : Product} {w : Widgets} (h : cur.price = .undef) :
    detectChanges cur w = .error () := by
  rw [detectChanges, priceChangedOf, h]
  rfl

/-- After the combined write, re-running the change test with the same
widget values reports no change. -/
theorem detectChanges_applyEditTo (cur : Product) (w : Widgets) :
    detectChanges (applyEditTo cur w) w = .ok false := by
  have hp : (applyEditTo cur w).price ≠ .undef := newPriceOf_ne_undef w
  rw [detectChanges_iff hp]
  simp [applyEditTo]

/-! ### Structural lemmas about `updateProductData` -/

theorem updateProductData_empty {s : AppState} (h : s.productData.length = 0)
    (b : Bool) : updateProductData s b = .ok (s, none) := by
  rw [updateProductData, if_pos h]

theorem updateProductData_eq_of {s : AppState} {b : Bool} {cur : Product}
    (hne : ¬ s.productData.length = 0)
    (hidx : jsIndex s.productData s.slideIndex = some cur)
    {ch : Bool} (hch : detectChanges cur s.widgets = .ok ch) :
    updateProductData s b =
      if ch then
        .ok ({ s with productData :=
                 s.productData.set s.slideIndex.toNat (applyEditTo cur s.widgets) },
             if b then some (updatedMsg cur) else none)
      else .ok (s, none) := by
  rw [updateProductData, if_neg hne, hidx]
  show (detectChanges cur s.widgets).bind _ = _
  rw [hch]
  rfl

theorem updateProductData_error_of {s : AppState} {b : Bool} {cur : Product}
    (hne : ¬ s.productData.length = 0)
    (hidx : jsIndex s.productData s.slideIndex = some cur)
    (hundef : cur.price = .undef) :
    updateProductData s b = .error () := by
  rw [updateProductData, if_neg hne, hidx]
  show (detectChanges cur s.widgets).bind _ = _
  rw [detectChanges_error hundef]
  rfl

/-! ### Cursor normalization claims -/

/-- C8: single-step wraparound — for every catalog of length `L ≥ 1`,
`seek` with delta `-1` from cursor `0` yields cursor `L - 1`, and `seek`
with delta `+1` from cursor `L - 1` yields cursor `0`. -/
theorem claim8_single_step_wraparound (L : Nat) (hL : 1 ≤ L) :
    seek L 0 (-1) = (L : Int) - 1 ∧ seek L ((L : Int) - 1) 1 = 0 := by
  constructor <;>
    · simp only [seek, showSlideCursor]
      split_ifs <;> omega

theorem claim8_witness :
    1 ≤ 3 ∧ (seek 3 0 (-1) = (3 : Int) - 1 ∧ seek 3 ((3 : Int) - 1) 1 = 0) :=
  ⟨by decide, claim8_single_step_wraparound 3 (by decide)⟩

/-- C2 counterexample: `seek` does not normalize by modulo arithmetic for
arbitrary deltas.  With a catalog of length 3, cursor 2 and delta 2 the
program yields cursor 0, while the index congruent to `2 + 2` modulo 3 is
1. -/
theorem claim2_counterexample :
    seek 3 2 2 = 0 ∧ ((2 : Int) + 2) % (3 : Int) = 1 ∧
      seek 3 2 2 ≠ ((2 : Int) + 2) % (3 : Int) := by
  decide

/-- C2 amended: `seek` normalizes `Cursor + delta` by a single clamp step
(`≥ L` resets to `0`, `< 0` resets to `L - 1`), not by modulo arithmetic;
this coincides with the index congruent to `Cursor + delta` modulo `L`
exactly for the single-step deltas `±1` applied to an in-range cursor,
which is all the program's navigation uses. -/
theorem claim2_amended (L : Nat) (cur delta : Int) (hL : 1 ≤ L) :
    seek L cur delta =
      (if cur + delta ≥ (L : Int) then 0
       else if cur + delta < 0 then (L : Int) - 1 else cur + delta)
    ∧ (0 ≤ cur → cur < (L : Int) → delta = 1 ∨ delta = -1 →
        seek L cur delta = (cur + delta) % (L : Int)) := by
  constructor
  · simp only [seek, showSlideCursor]
    split_ifs <;> omega
  · intro h0 hcur hdelta
    simp only [seek, showSlideCursor]
    rcases hdelta with h | h <;> subst h
    · rw [if_neg (by omega)]
      by_cases htop : cur + 1 ≥ (L : Int)
      · rw [if_pos htop]
        have heq : cur + 1 = (L : Int) := by omega
        rw [heq, Int.emod_self]
      · rw [if_neg htop]
        exact (Int.emod_eq_of_lt (by omega) (by omega)).symm
    · by_cases hbot : cur + -1 < 0
      · rw [if_pos hbot]
        have hcur0 : cur = 0 := by omega
        subst hcur0
        have hrw : (0 : Int) + -1 = ((L : Int) - 1) + (L : Int) * (-1) := by omega
        rw [hrw, Int.add_mul_emod_self_left,
          Int.emod_eq_of_lt (by omega) (by omega)]
      · rw [if_neg hbot, if_neg (by omega)]
        exact (Int.emod_eq_of_lt (by omega) (by omega)).symm

theorem claim2_amended_witness :
    1 ≤ 3 ∧
      (seek 3 2 5 =
        (if (2 : Int) + 5 ≥ (3 : Int) then 0
         else if (2 : Int) + 5 < 0 then (3 : Int) - 1 else 2 + 5)
      ∧ (0 ≤ (2 : Int) → (2 : Int) < (3 : Int) → (5 : Int) = 1 ∨ (5 : Int) = -1 →
          seek 3 2 5 = ((2 : Int) + 5) % (3 : Int))) :=
  ⟨by decide, claim2_amended 3 2 5 (by decide)⟩

/-! ### Empty-catalog behaviour -/

/-- C4 counterexample: on an empty catalog, navigation is not a complete
no-op — `navigateSlide` still executes `slideIndex += n` (line 150) before
`showSlide` returns early (line 53), so the cursor variable changes. -/
theorem claim4_counterexample :
    navigateSlide emptyCatalogState 1 = .ok { emptyCatalogState with slideIndex := 1 }
    ∧ ({ emptyCatalogState with slideIndex := 1 } : AppState) ≠ emptyCatalogState := by
  decide

/-- C4 amended: on an empty catalog no operation raises; every edit
operation is a complete no-op (state unchanged, no status message), and
navigation leaves the catalog, the widgets and the display unchanged and
emits no status, but does add the delta to the raw cursor variable — a
harmless drift, since the cursor is never read while the catalog is
empty. -/
theorem claim4_amended (s : AppState) (hs : s.productData = []) (b : Bool) (n : Int) :
    updateProductData s b = .ok (s, none)
    ∧ navigateSlide s n = .ok { s with slideIndex := s.slideIndex + n } := by
  have hlen : s.productData.length = 0 := by rw [hs]; rfl
  refine ⟨updateProductData_empty hlen b, ?_⟩
  rw [navigateSlide]
  show (updateProductData s false).bind _ = _
  rw [updateProductData_empty hlen false]
  show showSlide { s with slideIndex := s.slideIndex + n } _ = _
  rw [showSlide, if_pos hlen]

theorem claim4_witness :
    emptyCatalogState.productData = [] ∧
      (updateProductData emptyCatalogState true = .ok (emptyCatalogState, none)
      ∧ navigateSlide emptyCatalogState (-2) =
          .ok { emptyCatalogState with slideIndex := emptyCatalogState.slideIndex + (-2) }) :=
  ⟨rfl, claim4_amended emptyCatalogState rfl true (-2)⟩

/-! ### Facts about JS indexing -/

theorem jsIndex_some_lt {l : List Product} {i : Int} {p : Product}
    (h : jsIndex l i = some p) :
    0 ≤ i ∧ i.toNat < l.length ∧ l[i.toNat]? = some p := by
  rw [jsIndex] at h
  split at h
  · exact ⟨by assumption, (List.getElem?_eq_some.mp h).1, h⟩
  · exact absurd h (by simp)

theorem jsIndex_length_ne_zero {l : List Product} {i : Int} {p : Product}
    (h : jsIndex l i = some p) : ¬ l.length = 0 := by
  have := (jsIndex_some_lt h).2.1
  omega

theorem jsIndex_mem {l : List Product} {i : Int} {p : Product}
    (h : jsIndex l i = some p) : p ∈ l :=
  List.getElem?_mem (jsIndex_some_lt h).2.2

theorem jsIndex_set_self {l : List Product} {i : Int} {p : Product} (a : Product)
    (h : jsIndex l i = some p) : jsIndex (l.set i.toNat a) i = some a := by
  obtain ⟨h0, hlt, -⟩ := jsIndex_some_lt h
  rw [jsIndex, if_pos h0]
  exact List.getElem?_set_eq_of_lt a hlt

theorem updateProductData_of_detect_error {s : AppState} {b : Bool} {cur : Product}
    {e : Unit} (hne : ¬ s.productData.length = 0)
    (hidx : jsIndex s.productData s.slideIndex = some cur)
    (hch : detectChanges cur s.widgets = .error e) :
    updateProductData s b = .error e := by
  rw [updateProductData, if_neg hne, hidx]
  show (detectChanges cur s.widgets).bind _ = _
  rw [hch]
  rfl

theorem updateProductData_of_none {s : AppState} {b : Bool}
    (hne : ¬ s.productData.length = 0)
    (hidx : jsIndex s.productData s.slideIndex = none) :
    updateProductData s b = .error () := by
  rw [updateProductData, if_neg hne, hidx]

/-! ### C5: idempotence of the change detector -/

/-- C5: the change detector is idempotent — whatever a first invocation of
`updateProductData` did (in either mode), a second invocation on the
resulting state with the same widget values leaves the state unchanged
(no second effective write) and emits no status message. -/
theorem claim5_change_detector_idempotent (s : AppState) (b b' : Bool)
    (s₁ : AppState) (m₁ : Option String)
    (h : updateProductData s b = .ok (s₁, m₁)) :
    updateProductData s₁ b' = .ok (s₁, none) := by
  by_cases hlen : s.productData.length = 0
  · rw [updateProductData_empty hlen b] at h
    simp only [Except.ok.injEq, Prod.mk.injEq] at h
    rw [← h.1]
    exact updateProductData_empty hlen b'
  · cases hidx : jsIndex s.productData s.slideIndex with
    | none =>
      rw [updateProductData_of_none hlen hidx] at h
      exact absurd h (by simp)
    | some cur =>
      cases hch : detectChanges cur s.widgets with
      | error e =>
        rw [updateProductData_of_detect_error hlen hidx hch] at h
        exact absurd h (by simp)
      | ok ch =>
        rw [updateProductData_eq_of hlen hidx hch] at h
        cases ch with
        | false =>
          rw [if_neg (by simp)] at h
          simp only [Except.ok.injEq, Prod.mk.injEq] at h
          rw [← h.1]
          rw [updateProductData_eq_of hlen hidx hch, if_neg (by simp)]
        | true =>
          rw [if_pos rfl] at h
          simp only [Except.ok.injEq, Prod.mk.injEq] at h
          rw [← h.1]
          have hlen₁ : ¬ (s.productData.set s.slideIndex.toNat
              (applyEditTo cur s.widgets)).length = 0 := by
            rw [List.length_set]
            exact hlen
          have hidx₁ : jsIndex (s.productData.set s.slideIndex.toNat
              (applyEditTo cur s.widgets)) s.slideIndex =
              some (applyEditTo cur s.widgets) :=
            jsIndex_set_self _ hidx
          have heq := @updateProductData_eq_of
            { s with productData :=
                s.productData.set s.slideIndex.toNat (applyEditTo cur s.widgets) }
            b' (applyEditTo cur s.widgets) hlen₁ hidx₁ false
            (detectChanges_applyEditTo cur s.widgets)
          rw [heq, if_neg (by simp)]

theorem claim5_witness :
    updateProductData
        { productData :=
            [{ id := "p1", title := "Pen", image := "pen.png", price := .null,
               isAvailable := false, note := "x" }]
          slideIndex := 0
          widgets := { priceText := "", notAvailableChecked := true, noteText := " x " } }
        false =
      .ok ({ productData :=
               [{ id := "p1", title := "Pen", image := "pen.png", price := .null,
                  isAvailable := false, note := "x" }]
             slideIndex := 0
             widgets := { priceText := "", notAvailableChecked := true, noteText := " x " } },
           none) :=
  claim5_change_detector_idempotent
    { productData :=
        [{ id := "p1", title := "Pen", image := "pen.png", price := .null,
           isAvailable := true, note := "" }]
      slideIndex := 0
      widgets := { priceText := "", notAvailableChecked := true, noteText := " x " } }
    true false _ (some "Data for \"Pen\" updated!") (by decide)

/-! ### C6: commit iff something differs -/

/-- C6: the change detector commits to the current record iff at least one
of the three normalized fields (price, availability, note) differs in
value from the stored one; a commit writes all three fields as one
combined write (`applyEditTo`); a confirmation status naming the record's
title is emitted exactly when a commit occurs in interactive mode
(`showStatus = true`), and never in silent mode. -/
theorem claim6_commit_iff_differs (s : AppState) (b : Bool) (cur : Product)
    (hidx : jsIndex s.productData s.slideIndex = some cur)
    (hdef : cur.price ≠ .undef) :
    (cur.price ≠ newPriceOf s.widgets
      ∨ cur.isAvailable ≠ (!s.widgets.notAvailableChecked)
      ∨ cur.note ≠ jsTrim s.widgets.noteText →
      updateProductData s b =
        .ok ({ s with productData :=
                 s.productData.set s.slideIndex.toNat (applyEditTo cur s.widgets) },
             if b then some (updatedMsg cur) else none))
    ∧ (cur.price = newPriceOf s.widgets
        ∧ cur.isAvailable = (!s.widgets.notAvailableChecked)
        ∧ cur.note = jsTrim s.widgets.noteText →
      updateProductData s b = .ok (s, none)) := by
  have hne := jsIndex_length_ne_zero hidx
  have hch : detectChanges cur s.widgets =
      .ok (decide (cur.price ≠ newPriceOf s.widgets
            ∨ cur.isAvailable ≠ (!s.widgets.notAvailableChecked)
            ∨ cur.note ≠ jsTrim s.widgets.noteText)) :=
    detectChanges_iff hdef
  rw [updateProductData_eq_of hne hidx hch]
  constructor
  · intro hd
    rw [if_pos (decide_eq_true hd)]
  · intro hd
    rw [if_neg (by simp [hd.1, hd.2.1, hd.2.2])]

theorem claim6_witness :
    updateProductData
        { productData :=
            [{ id := "p1", title := "Pen", image := "pen.png", price := .null,
               isAvailable := true, note := "" }]
          slideIndex := 0
          widgets := { priceText := "", notAvailableChecked := true, noteText := "" } }
        true =
      .ok ({ productData :=
               [{ id := "p1", title := "Pen", image := "pen.png", price := .null,
                  isAvailable := false, note := "" }]
             slideIndex := 0
             widgets := { priceText := "", notAvailableChecked := true, noteText := "" } },
           some "Data for \"Pen\" updated!") := by
  have h := (claim6_commit_iff_differs
    { productData :=
        [{ id := "p1", title := "Pen", image := "pen.png", price := .null,
           isAvailable := true, note := "" }]
      slideIndex := 0
      widgets := { priceText := "", notAvailableChecked := true, noteText := "" } }
    true
    { id := "p1", title := "Pen", image := "pen.png", price := .null,
      isAvailable := true, note := "" }
    (by decide) (by decide)).1 (by decide)
  exact h.trans (by decide)

/-! ### C7: price comparison is on the parsed numeric value -/

/-- C7: price change detection uses numeric equality on the parsed value,
not string equality on the raw text — if the stored price is the number
`p` and the price-widget text parses to `p` (for example stored `10`
against text `"10.0"`), no price change is registered; empty widget text
against a stored `null` (absent) price likewise registers no change. -/
theorem claim7_price_numeric_equality (cur : Product) (w : Widgets) (p : ℚ)
    (hstored : cur.price = .num (.val p))
    (htext : w.priceText ≠ "")
    (hparse : parseFloat w.priceText = .val p) :
    priceChangedOf cur w = .ok false
    ∧ ∀ (cur₂ : Product) (w₂ : Widgets), cur₂.price = .null → w₂.priceText = "" →
        priceChangedOf cur₂ w₂ = .ok false := by
  constructor
  · have hdef : cur.price ≠ .undef := by rw [hstored]; simp
    rw [priceChangedOf_iff hdef]
    simp only [newPriceOf, if_neg htext, hparse, hstored]
    simp
  · intro cur₂ w₂ h2 h3
    have hdef : cur₂.price ≠ .undef := by rw [h2]; simp
    rw [priceChangedOf_iff hdef]
    simp only [newPriceOf, if_pos h3, h2]
    simp

theorem claim7_witness :
    priceChangedOf
        { id := "p1", title := "Pen", image := "pen.png", price := .num (.val 10),
          isAvailable := true, note := "" }
        { priceText := "10.0", notAvailableChecked := false, noteText := "" } =
      .ok false :=
  (claim7_price_numeric_equality _ _ 10 rfl (by decide)
    (by simp [parseFloat, takeDigits, digitsVal])).1

/-! ### C3: the export formatter

`exportSpecLine`/`exportSpec` restate the output format in the words of
the specification (§4.4): per record, in catalog order and numbered from
1, a title line; then a Status line when the record is unavailable
(availability takes precedence over price display), else a Price line with
the price rounded to 0 decimal places and suffix `" PKR"` (or `"N/A"` for
an absent price); then a Note line only when the note is non-empty; joined
with `"---"` separators and wrapped in the fixed header and footer.  The
claim is that the code's formatter computes exactly this.
-/

theorem toFixed0_intCast (n : ℤ) : toFixed0 (.val (n : ℚ)) = (intChars n).asString := by
  have h : (⌊(n : ℚ) + 1 / 2⌋ : ℤ) = n := by
    rw [add_comm, Int.floor_add_int]
    norm_num
  simp only [toFixed0, h]

theorem formatLine_eq {p : Product} (i : Nat) (hp : p.price ≠ .undef) :
    formatLine i p = .ok (exportSpecLine (i + 1) p) := by
  by_cases ha : p.isAvailable <;> cases hpr : p.price <;>
    simp_all [formatLine, exportSpecLine, hpr, ha, Bind.bind, Except.bind,
      String.append_assoc]

theorem formatLines_eq :
    ∀ (l : List Product) (i : Nat), (∀ p ∈ l, p.price ≠ .undef) →
      formatLines i l = .ok (exportSpecBody (i + 1) l) := by
  intro l
  induction l with
  | nil => intro i _; rfl
  | cons p rest ih =>
    intro i h
    rw [formatLines, formatLine_eq i (h p (List.mem_cons_self p rest))]
    show (Except.ok (exportSpecLine (i + 1) p)).bind _ = _
    rw [Except.bind, ih (i + 1) (fun q hq => h q (List.mem_cons_of_mem p hq))]
    rfl

theorem formatProductDataForSharing_eq (l : List Product)
    (h : ∀ p ∈ l, p.price ≠ .undef) :
    formatProductDataForSharing l = .ok (exportSpec l) := by
  rw [formatProductDataForSharing, formatLines_eq l 0 h]
  rfl

/-- C3: the export formatter is a pure function of the catalog computing
exactly the per-record format described by the specification
(`exportSpec`), for every catalog whose prices are all defined; in
particular on the two-record example catalog it produces exactly the
expected string. -/
theorem claim3_export_determinism :
    (∀ l : List Product, (∀ p ∈ l, p.price ≠ .undef) →
      formatProductDataForSharing l = .ok (exportSpec l))
    ∧ formatProductDataForSharing exampleCatalog =
        .ok ("--- PRODUCT LIST ---\n\n1. Pen\n   - Price: 10 PKR\n---\n"
          ++ "2. Cup\n   - Status: *Not Available*\n   - Note: chipped\n\n--- END ---") := by
  refine ⟨fun l h => formatProductDataForSharing_eq l h, ?_⟩
  rw [formatProductDataForSharing_eq exampleCatalog (by decide)]
  have h10 : toFixed0 (.val (10 : ℚ)) = "10" := by
    have hc : ((10 : ℤ) : ℚ) = (10 : ℚ) := by norm_num
    rw [← hc, toFixed0_intCast]
    decide
  simp only [exportSpec, exportSpecBody, exportSpecLine, exampleCatalog, h10]
  decide

theorem claim3_witness :
    formatProductDataForSharing exampleCatalog = .ok (exportSpec exampleCatalog) :=
  claim3_export_determinism.1 exampleCatalog (by decide)

/-! ### Inversion lemmas for navigation and the silent flush -/

/-- Whatever `updateProductData` does, it never changes the cursor, the
widgets or the catalog length, and in silent mode it emits no status. -/
theorem updateProductData_ok_inv {s : AppState} {b : Bool}
    {r : AppState × Option String} (h : updateProductData s b = .ok r) :
    r.1.slideIndex = s.slideIndex ∧ r.1.widgets = s.widgets
    ∧ r.1.productData.length = s.productData.length
    ∧ (b = false → r.2 = none) := by
  by_cases hlen : s.productData.length = 0
  · rw [updateProductData_empty hlen b] at h
    injection h with h1
    rw [← h1]
    exact ⟨rfl, rfl, rfl, fun _ => rfl⟩
  · cases hidx : jsIndex s.productData s.slideIndex with
    | none =>
      rw [updateProductData_of_none hlen hidx] at h
      exact absurd h (by simp)
    | some cur =>
      cases hch : detectChanges cur s.widgets with
      | error e =>
        rw [updateProductData_of_detect_error hlen hidx hch] at h
        exact absurd h (by simp)
      | ok ch =>
        rw [updateProductData_eq_of hlen hidx hch] at h
        cases ch with
        | false =>
          rw [if_neg (by simp)] at h
          injection h with h1
          rw [← h1]
          exact ⟨rfl, rfl, rfl, fun _ => rfl⟩
        | true =>
          rw [if_pos rfl] at h
          injection h with h1
          rw [← h1]
          refine ⟨rfl, rfl, by simp, fun hb => ?_⟩
          rw [hb]
          rfl

/-- `showSlide` never changes the catalog. -/
theorem showSlide_ok_productData {s : AppState} {n : Int} {s' : AppState}
    (h : showSlide s n = .ok s') : s'.productData = s.productData := by
  rw [showSlide] at h
  split at h
  · injection h with h1
    rw [← h1]
  · split at h
    · exact absurd h (by simp)
    · injection h with h1
      rw [← h1]

/-! ### C9: pending edits are flushed before navigation and export -/

/-- C9: both navigation and export first flush pending edits with a silent
commit.  Whenever `navigateSlide` succeeds, there is an intermediate state
produced by `updateProductData` in silent mode (no status message), taken
at the old cursor position, whose catalog is exactly the catalog after
navigation; and whenever `copyDataToClipboard` succeeds, the exported text
is the formatter applied to the silently flushed catalog. -/
theorem claim9_flush_before_navigation_and_export :
    (∀ (s : AppState) (n : Int) (s' : AppState), navigateSlide s n = .ok s' →
      ∃ s₁, updateProductData s false = .ok (s₁, none)
        ∧ s₁.slideIndex = s.slideIndex
        ∧ s'.productData = s₁.productData)
    ∧ (∀ (s s₂ : AppState) (str : String), copyDataToClipboard s = .ok (s₂, str) →
      ∃ s₁, updateProductData s false = .ok (s₁, none)
        ∧ formatProductDataForSharing s₁.productData = .ok str) := by
  constructor
  · intro s n s' h
    rw [navigateSlide] at h
    cases hu : updateProductData s false with
    | error e =>
      rw [hu] at h
      exact absurd h (by simp [Bind.bind, Except.bind])
    | ok r =>
      rw [hu] at h
      replace h : showSlide { r.1 with slideIndex := r.1.slideIndex + n }
          (r.1.slideIndex + n) = .ok s' := h
      have hinv := updateProductData_ok_inv hu
      refine ⟨r.1, ?_, hinv.1, ?_⟩
      · exact congrArg Except.ok (by rw [← hinv.2.2.2 rfl])
      · have hps := showSlide_ok_productData h
        exact hps
  · intro s s₂ str h
    rw [copyDataToClipboard] at h
    cases hu : updateProductData s false with
    | error e =>
      rw [hu] at h
      exact absurd h (by simp [Bind.bind, Except.bind])
    | ok r =>
      rw [hu] at h
      replace h : (formatProductDataForSharing r.1.productData).bind
          (fun d => Except.ok (r.1, d)) = .ok (s₂, str) := h
      cases hf : formatProductDataForSharing r.1.productData with
      | error e =>
        rw [hf] at h
        exact absurd h (by simp [Except.bind])
      | ok d =>
        rw [hf] at h
        replace h : (Except.ok (r.1, d) : Except Unit (AppState × String)) =
            .ok (s₂, str) := h
        injection h with h1
        have hinv := updateProductData_ok_inv hu
        refine ⟨r.1, ?_, ?_⟩
        · exact congrArg Except.ok (by rw [← hinv.2.2.2 rfl])
        · rw [hf]
          exact congrArg Except.ok (congrArg Prod.snd h1)

theorem claim9_witness :
    ∃ s₁, updateProductData
        { productData :=
            [{ id := "p1", title := "Pen", image := "pen.png", price := .null,
               isAvailable := true, note := "" }]
          slideIndex := 0
          widgets := { priceText := "", notAvailableChecked := false, noteText := "n" } }
        false = .ok (s₁, none)
      ∧ s₁.slideIndex = 0
      ∧ ({ productData :=
             [{ id := "p1", title := "Pen", image := "pen.png", price := .null,
                isAvailable := true, note := "n" }]
           slideIndex := 0
           widgets := { priceText := "", notAvailableChecked := false, noteText := "n" } }
          : AppState).productData = s₁.productData :=
  claim9_flush_before_navigation_and_export.1
    { productData :=
        [{ id := "p1", title := "Pen", image := "pen.png", price := .null,
           isAvailable := true, note := "" }]
      slideIndex := 0
      widgets := { priceText := "", notAvailableChecked := false, noteText := "n" } }
    0 _ (by decide)

/-! ### C10: the price field is not defaulted at load time -/

/-- C10: load normalization does not default the price field — a source
record with no price entry loads with `price` still absent (`undefined`,
neither `null` nor a number); on a catalog containing such a record the
change detector and the export formatter throw (`undefined.toString()` on
line 127, `undefined.toFixed(0)` on line 168); and both operations are
total under the precondition that every record's price is `null` or a
number. -/
theorem claim10_price_not_defaulted :
    (∀ item : RawItem, item.price = .undef → (loadItem item).price = .undef)
    ∧ updateProductData undefPriceState false = .error ()
    ∧ formatProductDataForSharing [undefPriceProduct] = .error ()
    ∧ (∀ (s : AppState) (b : Bool),
        (s.productData.length = 0 ∨ ∃ cur, jsIndex s.productData s.slideIndex = some cur) →
        (∀ p ∈ s.productData, p.price ≠ .undef) →
        ∃ r, updateProductData s b = .ok r)
    ∧ (∀ l : List Product, (∀ p ∈ l, p.price ≠ .undef) →
        ∃ str, formatProductDataForSharing l = .ok str) := by
  refine ⟨fun item h => h, by decide, by decide, ?_, ?_⟩
  · intro s b hcur hdef
    rcases hcur with hlen | ⟨cur, hidx⟩
    · exact ⟨(s, none), updateProductData_empty hlen b⟩
    · have hne := jsIndex_length_ne_zero hidx
      have hp : cur.price ≠ .undef := hdef cur (jsIndex_mem hidx)
      have hch : detectChanges cur s.widgets =
          .ok (decide (cur.price ≠ newPriceOf s.widgets
                ∨ cur.isAvailable ≠ (!s.widgets.notAvailableChecked)
                ∨ cur.note ≠ jsTrim s.widgets.noteText)) :=
        detectChanges_iff hp
      rw [updateProductData_eq_of hne hidx hch]
      split
      · exact ⟨_, rfl⟩
      · exact ⟨_, rfl⟩
  · intro l h
    exact ⟨exportSpec l, formatProductDataForSharing_eq l h⟩

theorem claim10_witness :
    ∃ r, updateProductData
        { productData :=
            [{ id := "p1", title := "Pen", image := "pen.png", price := .null,
               isAvailable := true, note := "" }]
          slideIndex := 0
          widgets := emptyWidgets }
        false = .ok r :=
  claim10_price_not_defaulted.2.2.2.1
    { productData :=
        [{ id := "p1", title := "Pen", image := "pen.png", price := .null,
           isAvailable := true, note := "" }]
      slideIndex := 0
      widgets := emptyWidgets }
    false
    (Or.inr ⟨{ id := "p1", title := "Pen", image := "pen.png", price := .null,
               isAvailable := true, note := "" }, by decide⟩)
    (by decide)

/-! ### C1: stale image loads cannot touch the current display -/

theorem imgInv_init : ImgInv imgInit := by
  constructor
  · exact Or.inl rfl
  · intro g b h
    exact absurd h (by simp [imgInit])

theorem imgStep_inv {s : ImgState} (h : ImgInv s) (e : ImgEv) : ImgInv (imgStep s e) := by
  cases e with
  | navigate =>
    refine ⟨Or.inr rfl, ?_⟩
    intro g b hd
    exact h.2 g b hd
  | fire ok =>
    rw [imgStep]
    cases hh : s.handlers with
    | none => exact h
    | some g' =>
      dsimp only
      by_cases hmem : g' ∈ s.settled
      · rw [if_pos hmem]
        exact h
      · rw [if_neg hmem]
        refine ⟨?_, ?_⟩
        · rcases h.1 with h1 | h1
          · rw [hh] at h1
            exact absurd h1 (by simp)
          · exact Or.inr (by rw [← hh, h1])
        · intro g b hd
          simp only [Option.some.injEq, Prod.mk.injEq] at hd
          rw [← hd.1]
          exact List.mem_cons_self g' s.settled

/-- A stale, still-pending promise stays pending forever: its resolvers
were discarded when a newer `showSlide` overwrote the element handlers, so
no later event can settle it. -/
theorem imgStep_stale {s : ImgState} {g : Nat} (hinv : ImgInv s)
    (hg : g < s.curGen) (hns : g ∉ s.settled) (e : ImgEv) :
    g < (imgStep s e).curGen ∧ g ∉ (imgStep s e).settled := by
  cases e with
  | navigate => exact ⟨by simp [imgStep]; omega, hns⟩
  | fire ok =>
    rw [imgStep]
    cases hh : s.handlers with
    | none => exact ⟨hg, hns⟩
    | some g' =>
      dsimp only
      by_cases hmem : g' ∈ s.settled
      · rw [if_pos hmem]
        exact ⟨hg, hns⟩
      · rw [if_neg hmem]
        refine ⟨hg, ?_⟩
        intro hgmem
        rcases List.mem_cons.mp hgmem with h1 | h1
        · rcases hinv.1 with h2 | h2
          · rw [hh] at h2
            exact absurd h2 (by simp)
          · rw [hh] at h2
            have : g' = s.curGen := by injection h2
            omega
        · exact hns h1

theorem runImg_stale :
    ∀ (evs : List ImgEv) (s : ImgState) (g : Nat), ImgInv s → g < s.curGen →
      g ∉ s.settled →
      ImgInv (runImg s evs) ∧ g < (runImg s evs).curGen ∧ g ∉ (runImg s evs).settled := by
  intro evs
  induction evs with
  | nil => exact fun s g hinv hg hns => ⟨hinv, hg, hns⟩
  | cons e rest ih =>
    intro s g hinv hg hns
    have h1 := imgStep_inv hinv e
    have h2 := imgStep_stale hinv hg hns e
    exact ih (imgStep s e) g h1 h2.1 h2.2

theorem runImg_inv : ∀ (evs : List ImgEv) (s : ImgState), ImgInv s → ImgInv (runImg s evs) := by
  intro evs
  induction evs with
  | nil => exact fun s h => h
  | cons e rest ih => exact fun s h => ih (imgStep s e) (imgStep_inv h e)

/-- C1: stale-load suppression.  Let `sX` be any reachable state of the
image subsystem and suppose its current load `A` (generation
`sX.curGen`) has not yet resolved.  After one more navigation (which
starts `Y`'s load, first discarding `A`'s registered completion/failure
callbacks, lines 80-92), no sequence of further events can ever settle
`A`'s promise, and the image display state is never written on behalf of
`A` — `A`'s eventual resolution (success or failure) produces no
observable change to the display state associated with `Y`'s load. -/
theorem claim1_stale_load_suppression (evs₁ evs₂ : List ImgEv) (ok : Bool)
    (hpending : (runImg imgInit evs₁).curGen ∉ (runImg imgInit evs₁).settled) :
    (runImg imgInit evs₁).curGen ∉
        (runImg (imgStep (runImg imgInit evs₁) .navigate) evs₂).settled
    ∧ (runImg (imgStep (runImg imgInit evs₁) .navigate) evs₂).lastDisplay
        ≠ some ((runImg imgInit evs₁).curGen, ok) := by
  have hinvX : ImgInv (runImg imgInit evs₁) := runImg_inv evs₁ imgInit imgInv_init
  have hinvY : ImgInv (imgStep (runImg imgInit evs₁) .navigate) :=
    imgStep_inv hinvX .navigate
  have hgY : (runImg imgInit evs₁).curGen <
      (imgStep (runImg imgInit evs₁) .navigate).curGen := by
    simp [imgStep]
  have hnsY : (runImg imgInit evs₁).curGen ∉
      (imgStep (runImg imgInit evs₁) .navigate).settled := hpending
  have hrun := runImg_stale evs₂ _ _ hinvY hgY hnsY
  refine ⟨hrun.2.2, fun hdisp => ?_⟩
  exact hrun.2.2 (hrun.1.2 _ _ hdisp)

theorem claim1_witness :
    (runImg imgInit [ImgEv.navigate]).curGen ∉ (runImg imgInit [ImgEv.navigate]).settled
    ∧ ((runImg imgInit [ImgEv.navigate]).curGen ∉
          (runImg (imgStep (runImg imgInit [ImgEv.navigate]) .navigate)
            [ImgEv.fire true]).settled
      ∧ (runImg (imgStep (runImg imgInit [ImgEv.navigate]) .navigate)
            [ImgEv.fire true]).lastDisplay
          ≠ some ((runImg imgInit [ImgEv.navigate]).curGen, true)) :=
  ⟨by decide,
   claim1_stale_load_suppression [ImgEv.navigate] [ImgEv.fire true] true (by decide)⟩

end BakewarePrices
